import Mathlib

/-!
Shallow embedding of `podb.py`, a SQLite-backed persistent translation store
(the `Podb` class and its helper SQL builders), together with proofs of the
specification claims about it.

Modelling conventions:
* The `po` table is a list of rows.  The base columns `ref`, `xcomment`, `en`
  are explicit fields; the dynamically added per-language text columns are an
  association list `trans` mapping a column (language) name to its non-null
  value — a name absent from the list is a NULL (or not-yet-added) column.
  The `updated_at` timestamp column is not modelled: no claim mentions it.
* The SQLite schema (which translation columns and `<lang>_po` views exist)
  is carried in `Db.cols` / `Db.views`; the `sqlite_schema` lookup of
  `HAS_LANG` becomes list membership.
* The `functools.cache` on `Podb.lang` is the `cached` field of `PodbState`;
  `self._langs` is the `langs` field.
* The recursion of `get_msgstr` through `self.lang(backup_lang)(...)` is
  modelled with a fuel parameter; `none` signals fuel exhaustion, which never
  happens from fuel 2 on because a backup language contains no hyphen
  (`backupLang_backup`).
-/

/-- One row of the `po` table.  `ref` is nullable; `trans` holds the non-null
values of the dynamically added per-language text columns. -/
structure Row where
  ref : Option String
  xcomment : String
  en : String
  trans : List (String × String)
deriving Repr, DecidableEq

/-- The SQLite database: schema (translation columns and per-language views)
plus the contents of the `po` table. -/
structure Db where
  cols : List String
  views : List String
  rows : List Row
deriving Repr, DecidableEq

/-- The in-memory state of a `Podb` instance together with its database:
`langs` is `self._langs`, and `cached` is the key set of the
`functools.cache` sitting on `Podb.lang`. -/
structure PodbState where
  db : Db
  langs : List String
  cached : List String
deriving Repr, DecidableEq

/-- The empty store produced by the `CREATE` script on a fresh file: no
translation columns, no views, no rows. -/
def initState : PodbState := ⟨⟨[], [], []⟩, [], []⟩

/-- The condition `en = ? and xcomment = ?` shared by the `_msgstr` lookup and
the `(en, xcomment)` primary key. -/
def rowMatches (en xcomment : String) (r : Row) : Bool :=
  r.en == en && r.xcomment == xcomment

/-- Modelling `fetchone` on `select ... from po where en = ? and
xcomment = ?`: the row keyed by `(en, xcomment)`, if any — unique because
`(en, xcomment)` is the table's primary key. -/
def findRow (rows : List Row) (en xcomment : String) : Option Row :=
  rows.find? (rowMatches en xcomment)

/-- Reading a per-language column from the association list: `some` holds the
stored text, `none` is SQL NULL. -/
def transLookup (trans : List (String × String)) (lang : String) : Option String :=
  (trans.find? (fun p => p.1 == lang)).map (fun p => p.2)

/-- Reading column `lang` of a row (`select "lang" from po where ...`). -/
def lookupCol (r : Row) (lang : String) : Option String :=
  transLookup r.trans lang

/-- Setting column `lang` of a row to a non-null value — the effect of
`do update set lang = excluded."lang"` on that row. -/
def setCol (trans : List (String × String)) (lang v : String) : List (String × String) :=
  match trans with
  | [] => [(lang, v)]
  | (k, w) :: rest => if k = lang then (k, v) :: rest else (k, w) :: setCol rest lang v

/-- Updating the (unique) row keyed by `(en, xcomment)` in place, leaving
every other row untouched. -/
def updateFirst (rows : List Row) (en xcomment : String) (f : Row → Row) : List Row :=
  match rows with
  | [] => []
  | r :: rs => if rowMatches en xcomment r then f r :: rs else r :: updateFirst rs en xcomment f

/-- The row inserted by `ADD_ENTRY`: the given `ref`, `xcomment` and `en`
(the msgid), with every translation column NULL. -/
def newRow (ref xcomment en : String) : Row :=
  ⟨some ref, xcomment, en, []⟩

/-- Executing `ADD_ENTRY`
(`insert into po (updated_at, ref, xcomment, en) values (...)`). -/
def addEntry (st : PodbState) (ref xcomment en : String) : PodbState :=
  { st with db := { st.db with rows := st.db.rows ++ [newRow ref xcomment en] } }

/-- Line 115 of podb.py: `lang.split('-')[0] if '-' in lang else None` — the
fallback (backup) language, computed by splitting on a HYPHEN only.  Python's
`split('-')[0]` is the prefix of the string before its first `'-'`. -/
def backupLang (lang : String) : Option String :=
  if lang.toList.contains '-' then some ⟨lang.toList.takeWhile (fun c => c != '-')⟩
  else none

/-- The spec's restricted identifier alphabet: letters, digits, underscore. -/
def restrictedIdentChar (c : Char) : Bool :=
  c.isAlpha || c.isDigit || c == '_'

/-- Spec-side predicate (computed nowhere in the code): every character of the
tag lies in the restricted identifier set. -/
def isRestrictedIdent (s : String) : Bool :=
  s.toList.all restrictedIdentChar

/-- Modelling `Podb._check_lang`: if `sqlite_schema` holds no object named
`lang ++ "_po"` (the `HAS_LANG` count is 0), run the `_add_lang` script, which
adds the text column `lang` to `po` and creates the view `lang ++ "_po"`.  No
validation of `lang` happens anywhere on this path; the tag is interpolated
verbatim (as a double-quoted identifier) into the schema-mutation SQL. -/
def checkLang (db : Db) (lang : String) : Db :=
  if db.views.contains (lang ++ "_po") then db
  else { db with cols := db.cols ++ [lang], views := db.views ++ [lang ++ "_po"] }

/-- The state effect of `Podb.lang lang` (obtaining a translator): a
`functools.cache` hit has no effect; `lang == 'en'` returns the identity
translator having only populated the cache; any other language is appended to
`self._langs` and passed to `_check_lang`. -/
def registerLang (st : PodbState) (lang : String) : PodbState :=
  if st.cached.contains lang then st
  else if lang = "en" then { st with cached := lang :: st.cached }
  else
    { db := checkLang st.db lang
      langs := st.langs ++ [lang]
      cached := lang :: st.cached }

/-- The closure `get_msgstr` built by `Podb.lang` for a non-source language
`lang` (podb.py lines 118–130), returning the translated string and the
updated state.  The recursive call `self.lang(backup_lang)(msgid, xcomment,
ref)` first registers the backup language, then invokes its translator — the
identity function when the backup is `'en'`.  `fuel` bounds the recursion
depth; `none` means the fuel ran out. -/
def getMsgstr : Nat → String → String → PodbState → String → String → String →
    Option (String × PodbState)
  | 0, _, _, _, _, _, _ => none
  | fuel + 1, missing, lang, st, msgid, xcomment, ref =>
    match findRow st.db.rows msgid xcomment with
    | none =>
      let st1 := addEntry st ref xcomment msgid
      match backupLang lang with
      | none => some (missing ++ msgid, st1)
      | some b =>
        let st2 := registerLang st1 b
        if b = "en" then some (msgid, st2)
        else getMsgstr fuel missing b st2 msgid xcomment ref
    | some r =>
      match lookupCol r lang with
      | none =>
        match backupLang lang with
        | none => some (missing ++ msgid, st)
        | some b =>
          let st2 := registerLang st b
          if b = "en" then some (msgid, st2)
          else getMsgstr fuel missing b st2 msgid xcomment ref
      | some s => some (s, st)

/-- Modelling `self.lang(lang)(msgid, xcomment, ref)`: obtain (registering and
caching as needed) the translator for `lang` and invoke it — the identity
translator for `'en'`, `get_msgstr` otherwise. -/
def callLang (fuel : Nat) (missing lang : String) (st : PodbState)
    (msgid xcomment ref : String) : Option (String × PodbState) :=
  let st2 := registerLang st lang
  if lang = "en" then some (msgid, st2)
  else getMsgstr fuel missing lang st2 msgid xcomment ref

/-- Executing `_upsert lang` with parameters `(xcomment, en, msgstr)`: insert
a new row (`ref` NULL, column `lang` set to `msgstr`) or, on an
`(en, xcomment)` conflict, update ONLY column `lang` of the existing row. -/
def upsert (db : Db) (lang xcomment en msgstr : String) : Db :=
  match findRow db.rows en xcomment with
  | none => { db with rows := db.rows ++ [⟨none, xcomment, en, [(lang, msgstr)]⟩] }
  | some _ =>
    let f := fun r => { r with trans := setCol r.trans lang msgstr }
    { db with rows := updateFirst db.rows en xcomment f }

/-- One PO catalog entry as parsed by `polib`. -/
structure PoEntry where
  comment : String
  msgid : String
  msgstr : String
deriving Repr, DecidableEq

/-- The per-entry step of the `Podb._read_pos` loop: an entry with empty
`msgstr` is skipped (`continue`), the rest are upserted into column `lang`. -/
def importEntry (db : Db) (lang : String) (e : PoEntry) : Db :=
  if e.msgstr = "" then db else upsert db lang e.comment e.msgid e.msgstr

/-- Importing one catalog (language `lang`, parsed entries `es`): the inner
loop of `Podb._read_pos`. -/
def readPos (db : Db) (lang : String) (es : List PoEntry) : Db :=
  es.foldl (fun d e => importEntry d lang e) db

/-- One block of the `lang ++ "_po"` view (the `create view` body emitted by
`_add_lang`): optional `#.` comment line, optional `#:` reference line, the
`msgid`, and an empty `msgstr`. -/
def renderEntry (r : Row) : String :=
  (if r.xcomment = "" then "" else "\n#. " ++ r.xcomment) ++
  (match r.ref with
   | none => ""
   | some s => "\n#: " ++ s) ++
  "\nmsgid \"" ++ r.en ++ "\"\nmsgstr \"\"\n"

/-- Evaluating `select entry from "lang_po"`: the view rows are exactly the
`po` rows whose column `lang` is NULL, rendered by `renderEntry`.  Being a
view, this always reflects the live table. -/
def poView (db : Db) (lang : String) : List String :=
  (db.rows.filter (fun r => (lookupCol r lang).isNone)).map renderEntry

/-- The header block `Podb._write_pos` writes at the top of each catalog file
(`filename` is `self._filename`).  The Python `\\n` are literal
backslash-n sequences in the output. -/
def poHeader (filename lang : String) : String :=
  "msgid \"\"\nmsgstr \"\"\n\"MIME-Version: 1.0\\n\"\n\"Content-Type: text/plain; charset=UTF-8\\n\"\n\"Content-Transfer-Encoding: 8bit\\n\"\n\"X-Generator: https://github.com/yawaramin/podb\\n\"\n\"Project-Id-Version: " ++ filename ++ "\\n\"\n\"Language: " ++ lang ++ "\\n\"\n"

/-- One catalog file produced by `Podb._write_pos`. -/
structure PoFile where
  lang : String
  fname : String
  contents : String
deriving Repr, DecidableEq

/-- Modelling `Podb._write_pos` (run on close): for each language of
`self._langs`, in order, write the file `lang ++ ".po"` containing the header
followed by every row of the `lang ++ "_po"` view. -/
def writePos (st : PodbState) (filename : String) : List PoFile :=
  st.langs.map (fun lang =>
    ⟨lang, lang ++ ".po", poHeader filename lang ++ String.join (poView st.db lang)⟩)

/-- The default of the `missing` parameter of `Podb.__init__`. -/
def defaultMissing : String := "🇺🇸 "


/-! ### Helper lemmas -/

/-- A character of `takeWhile (· != '-')` is never a hyphen. -/
theorem contains_takeWhile_hyphen (xs : List Char) :
    (xs.takeWhile (fun c => c != '-')).contains '-' = false := by
  rw [List.contains_eq_any_beq, List.any_eq_false]
  intro c hc
  have h := List.mem_takeWhile_imp hc
  simp only [bne_iff_ne, ne_eq] at h
  simp only [beq_iff_eq]
  exact fun h2 => h h2.symm

/-- A backup language contains no hyphen, so it has no backup of its own:
the fallback chain has length at most one. -/
theorem backupLang_backup {lang b : String} (h : backupLang lang = some b) :
    backupLang b = none := by
  unfold backupLang at h ⊢
  split at h
  · injection h with h
    have hb : b.toList.contains '-' = false := by
      rw [← h]
      exact contains_takeWhile_hyphen lang.toList
    have hb' : '-' ∉ b.data := by simpa using hb
    simp [hb']
  · exact Option.noConfusion h

/-- Obtaining a translator never touches the `po` table's rows. -/
theorem registerLang_db_rows (st : PodbState) (lang : String) :
    (registerLang st lang).db.rows = st.db.rows := by
  unfold registerLang checkLang
  split_ifs <;> rfl

/-- `rowMatches` unfolded to propositional equalities. -/
theorem rowMatches_true_iff {en xcomment : String} {r : Row} :
    rowMatches en xcomment r = true ↔ r.en = en ∧ r.xcomment = xcomment := by
  simp [rowMatches]

/-- The freshly inserted `ADD_ENTRY` row matches its own key. -/
theorem rowMatches_newRow (ref xcomment en : String) :
    rowMatches en xcomment (newRow ref xcomment en) = true := by
  simp [rowMatches, newRow]

/-- `findRow` on a cons, split on whether the head matches. -/
theorem findRow_cons (r : Row) (rs : List Row) (en xcomment : String) :
    findRow (r :: rs) en xcomment =
      if rowMatches en xcomment r then some r else findRow rs en xcomment := by
  unfold findRow
  rw [List.find?_cons]
  cases h : rowMatches en xcomment r <;> simp [h]

/-- A key found in a prefix is still found after appending rows. -/
theorem findRow_append_some {rows : List Row} {en xcomment : String} {r : Row}
    (h : findRow rows en xcomment = some r) (rows₂ : List Row) :
    findRow (rows ++ rows₂) en xcomment = some r := by
  unfold findRow at h ⊢
  rw [List.find?_append, h]
  rfl

/-- A key absent from a prefix is looked up in the appended rows. -/
theorem findRow_append_none {rows : List Row} {en xcomment : String}
    (h : findRow rows en xcomment = none) (rows₂ : List Row) :
    findRow (rows ++ rows₂) en xcomment = findRow rows₂ en xcomment := by
  unfold findRow at h ⊢
  rw [List.find?_append, h]
  rfl

/-- Looking up the key of a freshly inserted `ADD_ENTRY` row. -/
theorem findRow_newRow_singleton (ref xcomment en : String) :
    findRow [newRow ref xcomment en] en xcomment = some (newRow ref xcomment en) := by
  rw [findRow_cons, if_pos (rowMatches_newRow ref xcomment en)]

/-- `transLookup` on a cons, split on whether the head key matches. -/
theorem transLookup_cons (k w : String) (rest : List (String × String)) (l : String) :
    transLookup ((k, w) :: rest) l = if k = l then some w else transLookup rest l := by
  unfold transLookup
  rw [List.find?_cons]
  by_cases h : k = l
  · simp [h]
  · simp only [show ((k, w).1 == l) = false by simpa using h]
    rw [if_neg h]

/-- After `set lang = v`, column `lang` reads back `v`. -/
theorem transLookup_setCol_self (t : List (String × String)) (lang v : String) :
    transLookup (setCol t lang v) lang = some v := by
  induction t with
  | nil =>
    show transLookup [(lang, v)] lang = some v
    rw [transLookup_cons, if_pos rfl]
  | cons p rest ih =>
    obtain ⟨k, w⟩ := p
    by_cases hk : k = lang
    · subst hk
      show transLookup (setCol ((k, w) :: rest) k v) k = some v
      rw [show setCol ((k, w) :: rest) k v = (k, v) :: rest from by simp [setCol]]
      rw [transLookup_cons, if_pos rfl]
    · rw [show setCol ((k, w) :: rest) lang v = (k, w) :: setCol rest lang v from by
        simp [setCol, hk]]
      rw [transLookup_cons, if_neg hk]
      exact ih

/-- After `set lang = v`, every other column reads back unchanged. -/
theorem transLookup_setCol_ne (t : List (String × String)) (lang v l : String)
    (h : l ≠ lang) :
    transLookup (setCol t lang v) l = transLookup t l := by
  induction t with
  | nil =>
    show transLookup [(lang, v)] l = transLookup [] l
    rw [transLookup_cons, if_neg (fun hh => h hh.symm)]
  | cons p rest ih =>
    obtain ⟨k, w⟩ := p
    by_cases hk : k = lang
    · subst hk
      rw [show setCol ((k, w) :: rest) k v = (k, v) :: rest from by simp [setCol]]
      rw [transLookup_cons, transLookup_cons, if_neg (fun hh => h hh.symm),
        if_neg (fun hh => h hh.symm)]
    · rw [show setCol ((k, w) :: rest) lang v = (k, w) :: setCol rest lang v from by
        simp [setCol, hk]]
      rw [transLookup_cons, transLookup_cons]
      by_cases hkl : k = l
      · rw [if_pos hkl, if_pos hkl]
      · rw [if_neg hkl, if_neg hkl]
        exact ih

/-- Defining equation of `updateFirst` on `[]`. -/
theorem updateFirst_nil (en xcomment : String) (f : Row → Row) :
    updateFirst [] en xcomment f = [] := rfl

/-- Defining equation of `updateFirst` on a cons. -/
theorem updateFirst_cons (r : Row) (rs : List Row) (en xcomment : String) (f : Row → Row) :
    updateFirst (r :: rs) en xcomment f =
      if rowMatches en xcomment r then f r :: rs else r :: updateFirst rs en xcomment f := rfl

/-- Updating at a key rewrites exactly the matching row: looking the key up
afterwards yields the updated row. -/
theorem findRow_updateFirst_self {rows : List Row} {en xcomment : String} {r : Row}
    {f : Row → Row} (hf : ∀ s, (f s).en = s.en ∧ (f s).xcomment = s.xcomment)
    (h : findRow rows en xcomment = some r) :
    findRow (updateFirst rows en xcomment f) en xcomment = some (f r) := by
  induction rows with
  | nil => exact Option.noConfusion h
  | cons a as ih =>
    rw [findRow_cons] at h
    by_cases ha : rowMatches en xcomment a = true
    · rw [if_pos ha] at h
      injection h with h
      subst h
      rw [updateFirst_cons, if_pos ha, findRow_cons, if_pos ?_]
      have hkey := rowMatches_true_iff.mp ha
      exact rowMatches_true_iff.mpr ⟨(hf a).1.trans hkey.1, (hf a).2.trans hkey.2⟩
    · rw [if_neg ha] at h
      rw [updateFirst_cons, if_neg ha, findRow_cons, if_neg ha]
      exact ih h

/-- Updating at one key leaves lookups of every other key unchanged. -/
theorem findRow_updateFirst_ne {rows : List Row} {en xcomment en' xcomment' : String}
    {f : Row → Row} (hf : ∀ s, (f s).en = s.en ∧ (f s).xcomment = s.xcomment)
    (hne : ¬(en' = en ∧ xcomment' = xcomment)) :
    findRow (updateFirst rows en xcomment f) en' xcomment' = findRow rows en' xcomment' := by
  induction rows with
  | nil => rfl
  | cons a as ih =>
    rw [updateFirst_cons]
    by_cases ha : rowMatches en xcomment a = true
    · rw [if_pos ha, findRow_cons, findRow_cons]
      have hkey := rowMatches_true_iff.mp ha
      have hfa : rowMatches en' xcomment' (f a) = rowMatches en' xcomment' a := by
        unfold rowMatches
        rw [(hf a).1, (hf a).2]
      rw [hfa]
      by_cases hb : rowMatches en' xcomment' a = true
      · have hkey' := rowMatches_true_iff.mp hb
        exact absurd ⟨hkey'.1.symm.trans hkey.1, hkey'.2.symm.trans hkey.2⟩ hne
      · rw [if_neg hb, if_neg hb]
    · rw [if_neg ha, findRow_cons, findRow_cons]
      by_cases hb : rowMatches en' xcomment' a = true
      · rw [if_pos hb, if_pos hb]
      · rw [if_neg hb, if_neg hb]
        exact ih

/-- One `_read_pos` step keeps an existing row present and leaves every
column other than the imported language unchanged on it. -/
theorem importEntry_frame {db : Db} {lang : String} (e : PoEntry)
    {en xcomment : String} {r : Row} (l : String) (hl : l ≠ lang)
    (h : findRow db.rows en xcomment = some r) :
    ∃ r', findRow (importEntry db lang e).rows en xcomment = some r' ∧
      lookupCol r' l = lookupCol r l := by
  unfold importEntry
  by_cases hskip : e.msgstr = ""
  · rw [if_pos hskip]
    exact ⟨r, h, rfl⟩
  · rw [if_neg hskip]
    unfold upsert
    split
    · exact ⟨r, findRow_append_some h _, rfl⟩
    · have hf : ∀ s : Row, ((fun t => { t with
          trans := setCol t.trans lang e.msgstr } : Row → Row) s).en = s.en ∧
          ((fun t => { t with trans := setCol t.trans lang e.msgstr } : Row → Row) s).xcomment
            = s.xcomment := fun s => ⟨rfl, rfl⟩
      by_cases hkey : en = e.msgid ∧ xcomment = e.comment
      · obtain ⟨h1, h2⟩ := hkey
        rw [← h1, ← h2]
        refine ⟨_, findRow_updateFirst_self hf h, ?_⟩
        show transLookup (setCol r.trans lang e.msgstr) l = lookupCol r l
        exact transLookup_setCol_ne r.trans lang e.msgstr l hl
      · rw [findRow_updateFirst_ne hf hkey]
        exact ⟨r, h, rfl⟩

/-- An entire catalog import for language `lang` keeps an existing row present
and leaves every column `l ≠ lang` of it unchanged. -/
theorem readPos_frame {lang : String} (l : String) (hl : l ≠ lang)
    (en xcomment : String) :
    ∀ (es : List PoEntry) (db : Db) (r : Row),
      findRow db.rows en xcomment = some r →
      ∃ r', findRow (readPos db lang es).rows en xcomment = some r' ∧
        lookupCol r' l = lookupCol r l := by
  intro es
  induction es with
  | nil =>
    intro db r h
    exact ⟨r, h, rfl⟩
  | cons e es ih =>
    intro db r h
    obtain ⟨r1, h1, hv1⟩ := importEntry_frame e l hl h
    obtain ⟨r2, h2, hv2⟩ := ih (importEntry db lang e) r1 h1
    exact ⟨r2, by simpa [readPos, List.foldl_cons] using h2, hv2.trans hv1⟩

/-- A `functools.cache` hit: obtaining a translator for an already-cached
language leaves the state exactly as it is. -/
theorem registerLang_cached {st : PodbState} {lang : String}
    (h : st.cached.contains lang = true) : registerLang st lang = st := by
  unfold registerLang
  rw [if_pos h]

/-! ### Claim theorems -/

/-- C1 (code-bug evidence): the fallback computation of `Podb.lang` splits on
a HYPHEN only.  A hyphenated tag such as `fr-CA` falls back to `fr` and a
separator-free tag has no fallback, but an underscore tag such as `en_GB`
gets NO fallback — the claim, the code's own comment (`# E.g. en_GB backup is
en`) and the docstring's prescribed `en_US`-style underscore format all say
it should fall back to `en`. -/
theorem c1_fallback_splits_hyphen_only :
    backupLang "fr-CA" = some "fr" ∧ backupLang "fr" = none ∧
    backupLang "en_GB" = none ∧ ¬backupLang "en_GB" = some "en" := by
  refine ⟨?_, ?_, ?_, ?_⟩ <;> decide

/-- C2 counterexample: registering the malformed tag `it!` (the `'!'` lies
outside the restricted identifier set) does NOT fail fatally: the schema
mutation proceeds and adds the column `it!` and the view `it!_po`. -/
theorem c2_counterexample_no_fatal_failure :
    isRestrictedIdent "it!" = false ∧
    ¬(registerLang initState "it!").db = initState.db ∧
    (registerLang initState "it!").db.cols = ["it!"] ∧
    (registerLang initState "it!").db.views = ["it!_po"] := by
  refine ⟨?_, ?_, ?_, ?_⟩ <;> decide

/-- C2 (amended): registration validates nothing: for ANY tag — including
tags outside the restricted identifier set — that is uncached and whose view
does not exist yet, the schema mutation proceeds and the tag is interpolated
verbatim (never sanitized) as the new column and view name.  Safety is
delegated to callers by docstring warnings alone. -/
theorem c2_no_validation_tag_interpolated_verbatim (st : PodbState) (lang : String)
    (hc : st.cached.contains lang = false)
    (hen : lang ≠ "en")
    (hv : st.db.views.contains (lang ++ "_po") = false) :
    (registerLang st lang).db.cols = st.db.cols ++ [lang] ∧
    (registerLang st lang).db.views = st.db.views ++ [lang ++ "_po"] ∧
    (registerLang st lang).langs = st.langs ++ [lang] := by
  unfold registerLang checkLang
  rw [if_neg (by simpa using hc), if_neg hen, if_neg (by simpa using hv)]
  exact ⟨rfl, rfl, rfl⟩

/-- Witness for C2's amended theorem at the concrete malformed tag `it!`. -/
theorem c2_witness :
    (initState.cached.contains "it!" = false) ∧ ("it!" ≠ "en") ∧
    (initState.db.views.contains ("it!" ++ "_po") = false) ∧
    ((registerLang initState "it!").db.cols = initState.db.cols ++ ["it!"] ∧
     (registerLang initState "it!").db.views = initState.db.views ++ ["it!" ++ "_po"] ∧
     (registerLang initState "it!").langs = initState.langs ++ ["it!"]) :=
  ⟨by decide, by decide, by decide,
    c2_no_validation_tag_interpolated_verbatim initState "it!" (by decide) (by decide)
      (by decide)⟩

/-- C5: when the row for `(msgid, xcomment)` exists and its column `lang` is
non-null, the translator returns the stored string verbatim and changes
nothing — in particular a direct translation for a regional tag such as
`fr-CA` is preferred over the fallback language's translation, since the
fallback branch is never reached. -/
theorem c5_direct_translation_verbatim (fuel : Nat) (missing lang : String)
    (st : PodbState) (msgid xcomment ref : String) (r : Row) (s : String)
    (hlang : lang ≠ "en")
    (hfind : findRow st.db.rows msgid xcomment = some r)
    (hs : lookupCol r lang = some s) :
    getMsgstr (fuel + 1) missing lang st msgid xcomment ref = some (s, st) := by
  simp [getMsgstr, hfind, hs]

/-- Witness for C5: the store holds both a `fr` and a `fr-CA` translation of
`hello`; the `fr-CA` translator returns the direct `fr-CA` string. -/
theorem c5_witness :
    (("fr-CA" : String) ≠ "en") ∧
    (findRow [⟨some "r", "", "hello", [("fr", "salut"), ("fr-CA", "allo")]⟩] "hello" ""
      = some ⟨some "r", "", "hello", [("fr", "salut"), ("fr-CA", "allo")]⟩) ∧
    (lookupCol ⟨some "r", "", "hello", [("fr", "salut"), ("fr-CA", "allo")]⟩ "fr-CA"
      = some "allo") ∧
    getMsgstr 1 "M " "fr-CA"
        ⟨⟨["fr", "fr-CA"], ["fr_po", "fr-CA_po"],
          [⟨some "r", "", "hello", [("fr", "salut"), ("fr-CA", "allo")]⟩]⟩,
          ["fr", "fr-CA"], ["fr", "fr-CA"]⟩ "hello" "" "r"
      = some ("allo",
        ⟨⟨["fr", "fr-CA"], ["fr_po", "fr-CA_po"],
          [⟨some "r", "", "hello", [("fr", "salut"), ("fr-CA", "allo")]⟩]⟩,
          ["fr", "fr-CA"], ["fr", "fr-CA"]⟩) :=
  ⟨by decide, by decide, by decide,
    c5_direct_translation_verbatim 0 "M " "fr-CA"
      ⟨⟨["fr", "fr-CA"], ["fr_po", "fr-CA_po"],
        [⟨some "r", "", "hello", [("fr", "salut"), ("fr-CA", "allo")]⟩]⟩,
        ["fr", "fr-CA"], ["fr", "fr-CA"]⟩ "hello" "" "r"
      ⟨some "r", "", "hello", [("fr", "salut"), ("fr-CA", "allo")]⟩ "allo"
      (by decide) (by decide) (by decide)⟩

/-- C8: obtaining a translator for the same language twice is idempotent —
the second `Podb.lang` call hits the `functools.cache`, so it re-runs no
schema evolution, appends nothing to `self._langs`, and leaves the whole
state (hence the translator it returns, a function of that state and the
language) identical. -/
theorem c8_lang_idempotent (st : PodbState) (lang : String) :
    registerLang (registerLang st lang) lang = registerLang st lang :=
  registerLang_cached (by
    unfold registerLang
    split_ifs with h1 h2 <;> simp_all [List.contains_cons])

/-- C9: the translator for the base/source language `en` is the identity —
it returns the msgid unchanged — and performs zero store mutations: the
database (schema and rows) and the active-languages list are untouched (only
the in-memory memo cache records the call). -/
theorem c9_source_identity_no_mutation (fuel : Nat) (missing : String)
    (st : PodbState) (msgid xcomment ref : String) :
    callLang fuel missing "en" st msgid xcomment ref
      = some (msgid, registerLang st "en") ∧
    (registerLang st "en").db = st.db ∧
    (registerLang st "en").langs = st.langs := by
  refine ⟨by simp [callLang], ?_, ?_⟩ <;>
    by_cases h : "en" ∈ st.cached <;> simp [registerLang, h]

/-- C3: on a lookup miss (no row for `(msgid, xcomment)`), the translator for
`lang` inserts exactly one new entry — carrying the given `ref`, `xcomment`
and `msgid`, with every translation column null — and returns the sentinel
(the configured missing marker prefixed to the msgid) when `lang` has no
fallback, or the result of invoking the fallback language's translator with
the same arguments otherwise; afterwards the row for that key exists and its
column `lang` is null. -/
theorem c3_miss_inserts_then_sentinel_or_fallback (fuel : Nat) (missing lang : String)
    (st : PodbState) (msgid xcomment ref : String)
    (hlang : lang ≠ "en")
    (hmiss : findRow st.db.rows msgid xcomment = none) :
    ∃ out st',
      getMsgstr (fuel + 2) missing lang st msgid xcomment ref = some (out, st') ∧
      st'.db.rows = st.db.rows ++ [newRow ref xcomment msgid] ∧
      findRow st'.db.rows msgid xcomment = some (newRow ref xcomment msgid) ∧
      lookupCol (newRow ref xcomment msgid) lang = none ∧
      (backupLang lang = none → out = missing ++ msgid) ∧
      (∀ b, backupLang lang = some b →
        getMsgstr (fuel + 2) missing lang st msgid xcomment ref =
          callLang (fuel + 1) missing b (addEntry st ref xcomment msgid)
            msgid xcomment ref) := by
  have hrows1 : (addEntry st ref xcomment msgid).db.rows
      = st.db.rows ++ [newRow ref xcomment msgid] := rfl
  have hfind1 : findRow (addEntry st ref xcomment msgid).db.rows msgid xcomment
      = some (newRow ref xcomment msgid) := by
    rw [hrows1, findRow_append_none hmiss, findRow_newRow_singleton]
  cases hb : backupLang lang with
  | none =>
    refine ⟨missing ++ msgid, addEntry st ref xcomment msgid, ?_, rfl, hfind1, rfl,
      fun _ => rfl, fun b hb' => Option.noConfusion hb'⟩
    simp [getMsgstr, hmiss, hb]
  | some b =>
    have hcall : getMsgstr (fuel + 2) missing lang st msgid xcomment ref =
        callLang (fuel + 1) missing b (addEntry st ref xcomment msgid)
          msgid xcomment ref := by
      simp [getMsgstr, callLang, hmiss, hb, addEntry]
    by_cases hben : b = "en"
    · subst hben
      refine ⟨msgid, registerLang (addEntry st ref xcomment msgid) "en", ?_, ?_, ?_, rfl,
        fun h => Option.noConfusion h, fun b' hb' => ?_⟩
      · rw [hcall]
        simp [callLang]
      · rw [registerLang_db_rows]
        exact hrows1
      · rw [registerLang_db_rows]
        exact hfind1
      · injection hb' with hb'
        subst hb'
        exact hcall
    · have hb2 : backupLang b = none := backupLang_backup hb
      set st2 := registerLang (addEntry st ref xcomment msgid) b with hst2
      have hrows2 : st2.db.rows = st.db.rows ++ [newRow ref xcomment msgid] := by
        rw [hst2, registerLang_db_rows]
        exact hrows1
      have hfind2 : findRow st2.db.rows msgid xcomment = some (newRow ref xcomment msgid) := by
        rw [hst2, registerLang_db_rows]
        exact hfind1
      have hinner : getMsgstr (fuel + 1) missing b st2 msgid xcomment ref =
          some (missing ++ msgid, st2) := by
        simp [getMsgstr, hfind2, hb2, lookupCol, newRow, transLookup]
      refine ⟨missing ++ msgid, st2, ?_, hrows2, hfind2, rfl,
        fun _ => rfl, fun b' hb' => ?_⟩
      · rw [hcall]
        simp only [callLang, if_neg hben]
        rw [← hst2]
        exact hinner
      · injection hb' with hb'
        subst hb'
        exact hcall

/-- Witness for C3: a fresh store, an `it` translator (no fallback), the
message `hello`: the call returns the sentinel `M hello` and afterwards the
row for `("hello", "")` exists with column `it` null. -/
theorem c3_witness :
    (("it" : String) ≠ "en") ∧ (findRow initState.db.rows "hello" "" = none) ∧
    (∃ out st',
      getMsgstr 2 "M " "it" initState "hello" "" "podb" = some (out, st') ∧
      st'.db.rows = initState.db.rows ++ [newRow "podb" "" "hello"] ∧
      findRow st'.db.rows "hello" "" = some (newRow "podb" "" "hello") ∧
      lookupCol (newRow "podb" "" "hello") "it" = none ∧
      (backupLang "it" = none → out = "M " ++ "hello") ∧
      (∀ b, backupLang "it" = some b →
        getMsgstr 2 "M " "it" initState "hello" "" "podb" =
          callLang 1 "M " b (addEntry initState "podb" "" "hello") "hello" "" "podb")) :=
  ⟨by decide, by decide,
    c3_miss_inserts_then_sentinel_or_fallback 0 "M " "it" initState "hello" "" "podb"
      (by decide) (by decide)⟩

/-- C4: when the row for `(msgid, xcomment)` exists but its column `lang` is
null, the translator returns the sentinel or recurses into the fallback
translator exactly as in the miss case — but performs NO re-insert: the
table's rows are left unchanged (lazy fallback registration may still touch
the schema, never the rows). -/
theorem c4_null_column_no_reinsert (fuel : Nat) (missing lang : String)
    (st : PodbState) (msgid xcomment ref : String) (r : Row)
    (hlang : lang ≠ "en")
    (hfind : findRow st.db.rows msgid xcomment = some r)
    (hnull : lookupCol r lang = none) :
    ∃ out st',
      getMsgstr (fuel + 2) missing lang st msgid xcomment ref = some (out, st') ∧
      st'.db.rows = st.db.rows ∧
      (backupLang lang = none → out = missing ++ msgid ∧ st' = st) ∧
      (∀ b, backupLang lang = some b →
        getMsgstr (fuel + 2) missing lang st msgid xcomment ref =
          callLang (fuel + 1) missing b st msgid xcomment ref) := by
  cases hb : backupLang lang with
  | none =>
    refine ⟨missing ++ msgid, st, ?_, rfl, fun _ => ⟨rfl, rfl⟩,
      fun b hb' => Option.noConfusion hb'⟩
    simp [getMsgstr, hfind, hnull, hb]
  | some b =>
    have hcall : getMsgstr (fuel + 2) missing lang st msgid xcomment ref =
        callLang (fuel + 1) missing b st msgid xcomment ref := by
      simp [getMsgstr, callLang, hfind, hnull, hb]
    by_cases hben : b = "en"
    · subst hben
      refine ⟨msgid, registerLang st "en", ?_, registerLang_db_rows st "en",
        fun h => Option.noConfusion h, fun b' hb' => ?_⟩
      · rw [hcall]
        simp [callLang]
      · injection hb' with hb'
        subst hb'
        exact hcall
    · set st2 := registerLang st b with hst2
      have hfind2 : findRow st2.db.rows msgid xcomment = some r := by
        rw [hst2, registerLang_db_rows]
        exact hfind
      cases hcol : lookupCol r b with
      | some s =>
        have hinner : getMsgstr (fuel + 1) missing b st2 msgid xcomment ref
            = some (s, st2) := by
          simp [getMsgstr, hfind2, hcol]
        refine ⟨s, st2, ?_, by rw [hst2, registerLang_db_rows],
          fun h => Option.noConfusion h, fun b' hb' => ?_⟩
        · rw [hcall]
          simp only [callLang, if_neg hben]
          rw [← hst2]
          exact hinner
        · injection hb' with hb'
          subst hb'
          exact hcall
      | none =>
        have hb2 : backupLang b = none := backupLang_backup hb
        have hinner : getMsgstr (fuel + 1) missing b st2 msgid xcomment ref
            = some (missing ++ msgid, st2) := by
          simp [getMsgstr, hfind2, hcol, hb2]
        refine ⟨missing ++ msgid, st2, ?_, by rw [hst2, registerLang_db_rows],
          fun h => Option.noConfusion h, fun b' hb' => ?_⟩
        · rw [hcall]
          simp only [callLang, if_neg hben]
          rw [← hst2]
          exact hinner
        · injection hb' with hb'
          subst hb'
          exact hcall

/-- Witness for C4: a store already holding the `("hello", "")` row with a
null `it` column; the `it` translator returns the sentinel and the rows are
untouched. -/
theorem c4_witness :
    (("it" : String) ≠ "en") ∧
    (findRow (⟨⟨["it"], ["it_po"], [⟨some "r", "", "hello", []⟩]⟩,
        ["it"], ["it"]⟩ : PodbState).db.rows "hello" ""
      = some ⟨some "r", "", "hello", []⟩) ∧
    (lookupCol ⟨some "r", "", "hello", []⟩ "it" = none) ∧
    (∃ out st',
      getMsgstr 2 "M " "it"
          ⟨⟨["it"], ["it_po"], [⟨some "r", "", "hello", []⟩]⟩, ["it"], ["it"]⟩
          "hello" "" "podb" = some (out, st') ∧
      st'.db.rows = (⟨⟨["it"], ["it_po"], [⟨some "r", "", "hello", []⟩]⟩,
        ["it"], ["it"]⟩ : PodbState).db.rows ∧
      (backupLang "it" = none → out = "M " ++ "hello" ∧
        st' = ⟨⟨["it"], ["it_po"], [⟨some "r", "", "hello", []⟩]⟩, ["it"], ["it"]⟩) ∧
      (∀ b, backupLang "it" = some b →
        getMsgstr 2 "M " "it"
            ⟨⟨["it"], ["it_po"], [⟨some "r", "", "hello", []⟩]⟩, ["it"], ["it"]⟩
            "hello" "" "podb" =
          callLang 1 "M " b
            ⟨⟨["it"], ["it_po"], [⟨some "r", "", "hello", []⟩]⟩, ["it"], ["it"]⟩
            "hello" "" "podb")) :=
  ⟨by decide, by decide, by decide,
    c4_null_column_no_reinsert 0 "M " "it"
      ⟨⟨["it"], ["it_po"], [⟨some "r", "", "hello", []⟩]⟩, ["it"], ["it"]⟩
      "hello" "" "podb" ⟨some "r", "", "hello", []⟩
      (by decide) (by decide) (by decide)⟩

/-- C10: when a translation is missing (either no row at all, or a row with a
null column) and the language has NO fallback, the translator's return value
is the configured missing string concatenated with the original msgid — the
sentinel is a prefix, the msgid is always part of the result — and the
default of that missing string is the flag-emoji marker. -/
theorem c10_missing_marker_concat_msgid (fuel : Nat) (missing lang : String)
    (st : PodbState) (msgid xcomment ref : String)
    (hlang : lang ≠ "en")
    (hb : backupLang lang = none) :
    (findRow st.db.rows msgid xcomment = none →
      getMsgstr (fuel + 1) missing lang st msgid xcomment ref =
        some (missing ++ msgid, addEntry st ref xcomment msgid)) ∧
    (∀ r, findRow st.db.rows msgid xcomment = some r → lookupCol r lang = none →
      getMsgstr (fuel + 1) missing lang st msgid xcomment ref =
        some (missing ++ msgid, st)) ∧
    defaultMissing = "🇺🇸 " := by
  refine ⟨fun hmiss => ?_, fun r hfind hnull => ?_, rfl⟩
  · simp [getMsgstr, hmiss, hb, addEntry]
  · simp [getMsgstr, hfind, hnull, hb]

/-- Witness for C10: the `it` translator on a fresh store returns
`defaultMissing ++ "hello"` when invoked with the default missing marker. -/
theorem c10_witness :
    (("it" : String) ≠ "en") ∧ (backupLang "it" = none) ∧
    ((findRow initState.db.rows "hello" "" = none →
      getMsgstr 1 defaultMissing "it" initState "hello" "" "podb" =
        some (defaultMissing ++ "hello", addEntry initState "podb" "" "hello")) ∧
    (∀ r, findRow initState.db.rows "hello" "" = some r → lookupCol r "it" = none →
      getMsgstr 1 defaultMissing "it" initState "hello" "" "podb" =
        some (defaultMissing ++ "hello", initState)) ∧
    defaultMissing = "🇺🇸 ") :=
  ⟨by decide, by decide,
    c10_missing_marker_concat_msgid 0 defaultMissing "it" initState "hello" "" "podb"
      (by decide) (by decide)⟩

/-- C6: importing a catalog for language `lang` is a COLUMN-SCOPED upsert on
existing keys: (a) one `_upsert` of `text` for an existing key sets exactly
column `lang` of that row to the supplied text, leaving every other
language's column and the row's `ref`/`xcomment`/`en` unchanged; and (b) a
whole catalog import keeps every pre-existing row present with every column
`l ≠ lang` unchanged — never a full-row replace. -/
theorem c6_column_scoped_upsert (db : Db) (lang xcomment en text : String) (r : Row)
    (hfind : findRow db.rows en xcomment = some r) :
    (∃ r', findRow (upsert db lang xcomment en text).rows en xcomment = some r' ∧
      lookupCol r' lang = some text ∧
      (∀ l, l ≠ lang → lookupCol r' l = lookupCol r l) ∧
      r'.ref = r.ref ∧ r'.xcomment = r.xcomment ∧ r'.en = r.en) ∧
    (∀ es : List PoEntry, ∀ l, l ≠ lang →
      ∃ r'', findRow (readPos db lang es).rows en xcomment = some r'' ∧
        lookupCol r'' l = lookupCol r l) := by
  constructor
  · have hf : ∀ s : Row, ((fun t => { t with
        trans := setCol t.trans lang text } : Row → Row) s).en = s.en ∧
        ((fun t => { t with trans := setCol t.trans lang text } : Row → Row) s).xcomment
          = s.xcomment := fun s => ⟨rfl, rfl⟩
    refine ⟨{ r with trans := setCol r.trans lang text }, ?_, ?_, ?_, rfl, rfl, rfl⟩
    · unfold upsert
      rw [hfind]
      exact findRow_updateFirst_self hf hfind
    · exact transLookup_setCol_self r.trans lang text
    · intro l hl
      exact transLookup_setCol_ne r.trans lang text l hl
  · intro es l hl
    exact readPos_frame l hl en xcomment es db r hfind

/-- Witness for C6: importing `bonjour` as the `fr` translation of `hello`
updates only the `fr` column of the existing row, leaving its `en_GB` column
intact — also across a whole one-entry catalog import. -/
theorem c6_witness :
    (findRow [⟨some "r", "", "hello", [("en_GB", "colour")]⟩] "hello" ""
      = some ⟨some "r", "", "hello", [("en_GB", "colour")]⟩) ∧
    ((∃ r', findRow (upsert ⟨["en_GB", "fr"], ["en_GB_po", "fr_po"],
          [⟨some "r", "", "hello", [("en_GB", "colour")]⟩]⟩ "fr" "" "hello" "bonjour").rows
          "hello" "" = some r' ∧
      lookupCol r' "fr" = some "bonjour" ∧
      (∀ l, l ≠ "fr" → lookupCol r' l =
        lookupCol ⟨some "r", "", "hello", [("en_GB", "colour")]⟩ l) ∧
      r'.ref = (⟨some "r", "", "hello", [("en_GB", "colour")]⟩ : Row).ref ∧
      r'.xcomment = (⟨some "r", "", "hello", [("en_GB", "colour")]⟩ : Row).xcomment ∧
      r'.en = (⟨some "r", "", "hello", [("en_GB", "colour")]⟩ : Row).en) ∧
    (∀ es : List PoEntry, ∀ l, l ≠ "fr" →
      ∃ r'', findRow (readPos ⟨["en_GB", "fr"], ["en_GB_po", "fr_po"],
          [⟨some "r", "", "hello", [("en_GB", "colour")]⟩]⟩ "fr" es).rows "hello" ""
          = some r'' ∧
        lookupCol r'' l = lookupCol ⟨some "r", "", "hello", [("en_GB", "colour")]⟩ l)) :=
  ⟨by decide,
    c6_column_scoped_upsert
      ⟨["en_GB", "fr"], ["en_GB_po", "fr_po"],
        [⟨some "r", "", "hello", [("en_GB", "colour")]⟩]⟩
      "fr" "" "hello" "bonjour" ⟨some "r", "", "hello", [("en_GB", "colour")]⟩
      (by decide)⟩

/-- Right-cancellation of the `".po"` suffix on file names. -/
theorem append_po_cancel {l : String} (h : l ++ ".po" = "en" ++ ".po") : l = "en" := by
  have hd := congrArg String.data h
  rw [String.data_append, String.data_append] at hd
  exact String.ext (List.append_cancel_right hd)

/-- C7: on close, one catalog file is written per language of the
active-languages list — never one for the source language `en` (which is
never appended to that list) — and the blocks of language `lang`'s file are
exactly the rows whose column `lang` is null, rendered by the `lang_po`
view: a row holding a stored translation for `lang` is not re-listed, while
a row whose `lang` column is still null is listed. -/
theorem c7_export_per_language_gap_only (st : PodbState) (filename : String)
    (hen : "en" ∉ st.langs) :
    (writePos st filename).map PoFile.lang = st.langs ∧
    (∀ f ∈ writePos st filename, f.lang ≠ "en" ∧ f.fname = f.lang ++ ".po" ∧
      f.fname ≠ "en" ++ ".po" ∧
      f.contents = poHeader filename f.lang ++ String.join (poView st.db f.lang)) ∧
    (∀ lang, poView st.db lang =
      (st.db.rows.filter (fun r => lookupCol r lang = none)).map renderEntry) ∧
    (∀ lang r, r ∈ st.db.rows → lookupCol r lang = none →
      renderEntry r ∈ poView st.db lang) ∧
    (∀ lang r, r ∈ st.db.rows → ∀ t, lookupCol r lang = some t →
      r ∉ st.db.rows.filter (fun r' => lookupCol r' lang = none)) := by
  refine ⟨?_, ?_, ?_, ?_, ?_⟩
  · simp [writePos, List.map_map, Function.comp_def]
  · intro f hf
    simp only [writePos, List.mem_map] at hf
    obtain ⟨l, hl, rfl⟩ := hf
    refine ⟨fun h => hen (h ▸ hl), rfl, fun h => hen (append_po_cancel h ▸ hl), rfl⟩
  · intro lang
    unfold poView
    refine congrArg (List.map renderEntry) (List.filter_congr ?_)
    intro r _
    cases h : lookupCol r lang <;> simp [h]
  · intro lang r hr hnull
    unfold poView
    exact List.mem_map_of_mem renderEntry (List.mem_filter.mpr ⟨hr, by simp [hnull]⟩)
  · intro lang r hr t ht hmem
    have := (List.mem_filter.mp hmem).2
    simp [ht] at this

/-- Witness for C7: a store with active language `fr` and two rows — `hello`
untranslated, `bye` translated — exports exactly one file, `fr.po`, listing
`hello` and not `bye`. -/
theorem c7_witness :
    (("en" : String) ∉ ["fr"]) ∧
    ((writePos ⟨⟨["fr"], ["fr_po"],
        [⟨some "r", "", "hello", []⟩, ⟨none, "", "bye", [("fr", "salut")]⟩]⟩,
        ["fr"], ["fr"]⟩ "po.db").map PoFile.lang = ["fr"] ∧
    (∀ f ∈ writePos ⟨⟨["fr"], ["fr_po"],
        [⟨some "r", "", "hello", []⟩, ⟨none, "", "bye", [("fr", "salut")]⟩]⟩,
        ["fr"], ["fr"]⟩ "po.db", f.lang ≠ "en" ∧ f.fname = f.lang ++ ".po" ∧
      f.fname ≠ "en" ++ ".po" ∧
      f.contents = poHeader "po.db" f.lang ++ String.join (poView ⟨["fr"], ["fr_po"],
        [⟨some "r", "", "hello", []⟩, ⟨none, "", "bye", [("fr", "salut")]⟩]⟩ f.lang)) ∧
    (∀ lang, poView ⟨["fr"], ["fr_po"],
        [⟨some "r", "", "hello", []⟩, ⟨none, "", "bye", [("fr", "salut")]⟩]⟩ lang =
      (([⟨some "r", "", "hello", []⟩, ⟨none, "", "bye", [("fr", "salut")]⟩] :
          List Row).filter (fun r => lookupCol r lang = none)).map renderEntry) ∧
    (∀ lang r, r ∈ ([⟨some "r", "", "hello", []⟩,
        ⟨none, "", "bye", [("fr", "salut")]⟩] : List Row) →
      lookupCol r lang = none →
      renderEntry r ∈ poView ⟨["fr"], ["fr_po"],
        [⟨some "r", "", "hello", []⟩, ⟨none, "", "bye", [("fr", "salut")]⟩]⟩ lang) ∧
    (∀ lang r, r ∈ ([⟨some "r", "", "hello", []⟩,
        ⟨none, "", "bye", [("fr", "salut")]⟩] : List Row) →
      ∀ t, lookupCol r lang = some t →
      r ∉ ([⟨some "r", "", "hello", []⟩, ⟨none, "", "bye", [("fr", "salut")]⟩] :
        List Row).filter (fun r' => lookupCol r' lang = none))) :=
  ⟨by decide,
    c7_export_per_language_gap_only
      ⟨⟨["fr"], ["fr_po"],
        [⟨some "r", "", "hello", []⟩, ⟨none, "", "bye", [("fr", "salut")]⟩]⟩,
        ["fr"], ["fr"]⟩ "po.db" (by decide)⟩
